import Mathlib

/-!
Shallow embedding of the fanfiction-explorer search/query and indexing layer:
`search_stories`, `get_top_authors`, `get_basic_stats` from `src/app/utils.py`,
the per_page clamp of the JSON search endpoint from `src/app/api.py`, and the
`DatabaseIndexer` operations from `src/app/db_indexes.py`.

The SQLite table `metadata_full` is modelled as a list of rows.  Text columns
are `Option String` (NULL = `none`), numeric columns `Option Int`, and the
`Updated` ordering key is modelled as an `Option Nat` timestamp.  SQL NULL
comparison semantics (a NULL column never satisfies a comparison), SQLite's
treatment of a negative OFFSET as zero and of a negative LIMIT as "no limit",
and the NULL-ignoring aggregates AVG/SUM are embedded explicitly.
-/

/-- One row of the `metadata_full` table, projected to the columns the
search/statistics layer reads. -/
structure Story where
  title : Option String := none
  author : Option String := none
  category : Option String := none
  genre : Option String := none
  language : Option String := none
  status : Option String := none
  rating : Option String := none
  word_count : Option Int := none
  chapter_count : Option Int := none
  updated : Option Nat := none
  rowid : Nat := 0
deriving DecidableEq

/-- The sparse filter mapping handed to `search_stories` (`query_params` in
`src/app/utils.py`).  Values are the raw caller-supplied strings, as both
callers (`src/app/routes.py`, `src/app/api.py`) pass request-arg strings;
`none` models an absent key. -/
structure QueryParams where
  title : Option String := none
  author : Option String := none
  category : Option String := none
  genre : Option String := none
  language : Option String := none
  status : Option String := none
  rating : Option String := none
  min_words : Option String := none
  max_words : Option String := none
deriving DecidableEq

/-- Value of a decimal digit character. -/
def digitVal (c : Char) : Option Nat :=
  if c.isDigit then some (c.toNat - 48) else none

/-- Accumulating decimal parse of a digit string; `none` on any non-digit. -/
def parseDigits (acc : Nat) : List Char → Option Nat
  | [] => some acc
  | c :: cs =>
    match digitVal c with
    | some d => parseDigits (acc * 10 + d) cs
    | none => none

/-- Model of Python `int(s)` on the strings relevant here: an optional sign
followed by at least one decimal digit parses; everything else raises
`ValueError`, modelled as `none`. -/
def pyInt? (s : String) : Option Int :=
  match s.toList with
  | [] => none
  | '-' :: cs =>
    match cs with
    | [] => none
    | _ => (parseDigits 0 cs).map (fun n => -(n : Int))
  | '+' :: cs =>
    match cs with
    | [] => none
    | _ => (parseDigits 0 cs).map (fun n => (n : Int))
  | cs => (parseDigits 0 cs).map (fun n => (n : Int))

/-- Boolean test that `pat` occurs as a prefix of `s` (on character lists). -/
def charsStartWith : List Char → List Char → Bool
  | [], _ => true
  | _ :: _, [] => false
  | c :: cs, d :: ds => c == d && charsStartWith cs ds

/-- Boolean test that `pat` occurs as a contiguous run inside `s`. -/
def charsContain (pat : List Char) : List Char → Bool
  | [] => charsStartWith pat []
  | d :: ds => charsStartWith pat (d :: ds) || charsContain pat ds

/-- SQLite `col LIKE '%pat%'`: case-insensitive containment. -/
def likeContains (pat s : String) : Bool :=
  charsContain (pat.toList.map Char.toLower) (s.toList.map Char.toLower)

/-- One optional substring clause (`Title LIKE ?` etc.): skipped when the
parameter is absent or falsy (empty); a NULL column never matches. -/
def condLike (param col : Option String) : Bool :=
  match param with
  | none => true
  | some p =>
    if p = "" then true
    else
      match col with
      | some s => likeContains p s
      | none => false

/-- One optional equality clause (`Language = ?` etc.): skipped when the
parameter is absent or falsy; NULL never equals the parameter. -/
def condEq (param col : Option String) : Bool :=
  match param with
  | none => true
  | some p =>
    if p = "" then true
    else
      match col with
      | some s => s == p
      | none => false

/-- Optional `word_count >= ?` clause; NULL word_count fails the comparison. -/
def condMin (bound wc : Option Int) : Bool :=
  match bound with
  | none => true
  | some n =>
    match wc with
    | some w => decide (n ≤ w)
    | none => false

/-- Optional `word_count <= ?` clause; NULL word_count fails the comparison. -/
def condMax (bound wc : Option Int) : Bool :=
  match bound with
  | none => true
  | some n =>
    match wc with
    | some w => decide (w ≤ n)
    | none => false

/-- The conjunction of the dynamically appended WHERE clauses of
`search_stories`, applied to one row.  `mn`/`mx` are the already-parsed
numeric bounds. -/
def rowMatches (qp : QueryParams) (mn mx : Option Int) (r : Story) : Bool :=
  condLike qp.title r.title &&
  condLike qp.author r.author &&
  condLike qp.category r.category &&
  condLike qp.genre r.genre &&
  condEq qp.language r.language &&
  condEq qp.status r.status &&
  condEq qp.rating r.rating &&
  condMin mn r.word_count &&
  condMax mx r.word_count

/-- The Python exceptions the embedded operations can raise. -/
inductive PyErr where
  | valueError
deriving DecidableEq

/-- Translation of one numeric bound: `if query_params.get(key):` (absent or
empty string is falsy, so no clause), then `int(value)`, which raises
`ValueError` on a malformed value. -/
def parseBound : Option String → Except PyErr (Option Int)
  | none => Except.ok none
  | some s =>
    if s = "" then Except.ok none
    else
      match pyInt? s with
      | some n => Except.ok (some n)
      | none => Except.error PyErr.valueError

/-- Sort key for `ORDER BY Updated DESC` (NULLs have the smallest key, so they
sort last in descending order, matching SQLite). -/
def updatedKey (r : Story) : Nat :=
  r.updated.getD 0

/-- The descending-by-`Updated` order used by the search query; ties are broken
deterministically by the (stable) sort below. -/
def updatedDescRel (a b : Story) : Prop :=
  updatedKey b ≤ updatedKey a

instance : DecidableRel updatedDescRel :=
  fun a b => inferInstanceAs (Decidable (_ ≤ _))

/-- SQLite `LIMIT ? OFFSET ?`: a negative OFFSET is treated as zero and a
negative LIMIT means no upper bound. -/
def sqlPage (limit offset : Int) (l : List Story) : List Story :=
  if limit < 0 then l.drop offset.toNat
  else (l.drop offset.toNat).take limit.toNat

/-- Embedding of `search_stories(query_params, page, per_page)` from
`src/app/utils.py`: build the WHERE conjunction (parsing the numeric bounds
with Python `int`, which can raise), run the ordered paginated query, and
re-run the same predicate without LIMIT/OFFSET for `total_count`. -/
def search_stories (qp : QueryParams) (page per_page : Int) (db : List Story) :
    Except PyErr (List Story × Nat) := do
  let mn ← parseBound qp.min_words
  let mx ← parseBound qp.max_words
  let matched := db.filter (rowMatches qp mn mx)
  let ordered := matched.insertionSort updatedDescRel
  pure (sqlPage per_page ((page - 1) * per_page) ordered, matched.length)

/-- The records of one result page, `[]` if the search raised. -/
def pageRecords (qp : QueryParams) (per_page : Int) (db : List Story)
    (page : Int) : List Story :=
  match search_stories qp page per_page db with
  | Except.ok out => out.1
  | Except.error _ => []

/-- The reported `total_count`, `0` if the search raised. -/
def searchTotalCount (qp : QueryParams) (per_page : Int) (db : List Story) : Nat :=
  match search_stories qp 1 per_page db with
  | Except.ok out => out.2
  | Except.error _ => 0

/-- The JSON search endpoint `api_search` of `src/app/api.py`, which clamps
`per_page = min(int(request.args.get(...)), 100)` before delegating to
`search_stories`.  (The HTML route in `src/app/routes.py` applies no clamp.) -/
def api_search (qp : QueryParams) (page per_page : Int) (db : List Story) :
    Except PyErr (List Story × Nat) :=
  search_stories qp page (min per_page 100) db

/-- The author of a row when it passes the grouping filter
`Author IS NOT NULL AND Author != ''`; `none` otherwise. -/
def presentAuthor (r : Story) : Option String :=
  match r.author with
  | some a => if a = "" then none else some a
  | none => none

/-- The distinct non-NULL, non-empty author values of the table
(the `GROUP BY Author` keys, also `COUNT(DISTINCT Author)` of
`get_basic_stats`). -/
def authorValues (db : List Story) : List String :=
  (db.filterMap presentAuthor).dedup

/-- The rows of one author group (`GROUP BY Author` with exact, case-sensitive
BINARY collation on the stored value). -/
def author_rows (db : List Story) (a : String) : List Story :=
  db.filter (fun r => r.author == some a)

/-- The non-NULL `word_count` values of one author group; SQLite AVG and SUM
ignore NULLs, so these are exactly the values they aggregate. -/
def groupWordCounts (db : List Story) (a : String) : List Int :=
  (author_rows db a).filterMap (fun r => r.word_count)

/-- SQLite `AVG` over a bag of non-NULL integers: NULL on the empty bag,
otherwise the exact arithmetic mean. -/
def sqlAvg (l : List Int) : Option ℚ :=
  if l.isEmpty then none else some ((l.sum : ℚ) / (l.length : ℚ))

/-- SQLite `SUM` over a bag of non-NULL integers: NULL on the empty bag. -/
def sqlSum (l : List Int) : Option Int :=
  if l.isEmpty then none else some l.sum

/-- One row of the `get_top_authors` result set. -/
structure AuthorStat where
  author : String
  story_count : Nat
  avg_words : Option ℚ
  total_words : Option Int
deriving DecidableEq

/-- The aggregate row of one author group, as computed by the
`get_top_authors` query (`AVG(word_count)`, `SUM(word_count)` with no
`word_count > 0` restriction). -/
def authorStat (db : List Story) (a : String) : AuthorStat :=
  { author := a
    story_count := (author_rows db a).length
    avg_words := sqlAvg (groupWordCounts db a)
    total_words := sqlSum (groupWordCounts db a) }

/-- The `ORDER BY story_count DESC` order on aggregate rows. -/
def storyCountDescRel (x y : AuthorStat) : Prop :=
  y.story_count ≤ x.story_count

instance : DecidableRel storyCountDescRel :=
  fun a b => inferInstanceAs (Decidable (_ ≤ _))

/-- Embedding of `get_top_authors(limit)` from `src/app/utils.py`: group the
rows with a present, non-empty author, aggregate each group, order by story
count descending and truncate to `limit`. -/
def get_top_authors (db : List Story) (limit : Nat) : List AuthorStat :=
  (((authorValues db).map (authorStat db)).insertionSort storyCountDescRel).take limit

/-- The average the spec claims for `get_top_authors`: the mean of
`word_count` over only that author's records with `word_count > 0`. -/
def specAvgPositive (db : List Story) (a : String) : Option ℚ :=
  sqlAvg ((groupWordCounts db a).filter (fun w => decide (0 < w)))

/-- All non-NULL `word_count` values of the table
(`WHERE word_count IS NOT NULL`). -/
def allWordCounts (db : List Story) : List Int :=
  db.filterMap (fun r => r.word_count)

/-- Python `int()` applied to an exact numeric value: truncation toward
zero. -/
def pyTruncInt (q : ℚ) : Int :=
  if 0 ≤ q then ⌊q⌋ else -⌊-q⌋

/-- The record returned by `get_basic_stats`. -/
structure BasicStats where
  total_stories : Nat
  unique_authors : Nat
  total_words : Option Int
  avg_words : Int
deriving DecidableEq

/-- Embedding of `get_basic_stats()` from `src/app/utils.py`:
`SUM(word_count)` over non-NULL values (NULL on the empty set), and
`AVG(word_count) WHERE word_count > 0` pushed through Python
`int(avg_words) if avg_words else 0` (both `None` and `0.0` are falsy). -/
def get_basic_stats (db : List Story) : BasicStats :=
  let ws := allWordCounts db
  let pos := ws.filter (fun w => decide (0 < w))
  { total_stories := db.length
    unique_authors := (authorValues db).length
    total_words := sqlSum ws
    avg_words :=
      match sqlAvg pos with
      | none => 0
      | some q => if q = 0 then 0 else pyTruncInt q }

/-- The names of the 19 `IndexSpec` entries of the `DatabaseIndexer` catalog
(`self.indexes` in `src/app/db_indexes.py`), in catalog order. -/
def catalogNames : List String :=
  ["idx_author", "idx_category", "idx_language", "idx_status", "idx_rating",
   "idx_word_count", "idx_chapter_count", "idx_updated", "idx_published",
   "idx_title_text", "idx_genre_text", "idx_category_status",
   "idx_author_updated", "idx_category_wordcount", "idx_language_status",
   "idx_rating_wordcount", "idx_author_count", "idx_category_count",
   "idx_search_filter"]

/-- The `name NOT LIKE 'sqlite_%'` exclusion of `check_existing_indexes`:
a case-insensitive `sqlite` prefix followed by at least one character. -/
def isInternalIndex (n : String) : Bool :=
  decide (7 ≤ n.toList.length) && (n.toList.take 6).map Char.toLower == "sqlite".toList

/-- Embedding of `check_existing_indexes`: the names of all indexes on
`metadata_full` except SQLite-internal ones.  The index state of the database
is modelled as the list of index names on the table. -/
def check_existing_indexes (st : List String) : List String :=
  st.filter (fun n => !isInternalIndex n)

/-- The result dict of `create_indexes`. -/
structure EnsureResult where
  created : List String
  skipped : List String
  errors : List String
deriving DecidableEq

/-- Effect of one `CREATE INDEX IF NOT EXISTS` statement on the index state. -/
def createStep (st : List String) (n : String) : List String :=
  if n ∈ st then st else st ++ [n]

/-- The per-catalog-entry loop of `create_indexes`: an entry already in the
`existing` snapshot is skipped unless `force`; otherwise its creation SQL is
executed.  Returns the final state with the `created` and `skipped` lists. -/
def createLoop (existing : List String) (force : Bool) (st : List String) :
    List String → List String × List String × List String
  | [] => (st, [], [])
  | n :: rest =>
    if n ∈ existing ∧ force = false then
      let out := createLoop existing force st rest
      (out.1, out.2.1, n :: out.2.2)
    else
      let out := createLoop existing force (createStep st n) rest
      (out.1, n :: out.2.1, out.2.2)

/-- Embedding of `DatabaseIndexer.create_indexes(force)`: snapshot the
existing indexes, process the catalog, and return the new state with the
result dict (no SQLite error occurs in the model, so `errors` is empty,
matching the spec expectation that re-creation never errors). -/
def create_indexes (force : Bool) (st : List String) :
    List String × EnsureResult :=
  let existing := check_existing_indexes st
  let out := createLoop existing force st catalogNames
  (out.1, { created := out.2.1, skipped := out.2.2, errors := [] })

/-- The result dict of `remove_indexes`. -/
structure RemoveResult where
  removed : List String
  errors : List String
deriving DecidableEq

/-- The `DROP INDEX IF EXISTS` loop of `remove_indexes` over the list of
index names to drop. -/
def removeLoop (st : List String) : List String → List String
  | [] => st
  | n :: rest => removeLoop (st.filter (fun m => m != n)) rest

/-- Embedding of `DatabaseIndexer.remove_indexes(confirm)`: without
confirmation, or when no non-internal index exists, nothing is touched;
otherwise every name returned by `check_existing_indexes` is dropped. -/
def remove_indexes : Bool → List String → List String × RemoveResult
  | false, st => (st, { removed := [], errors := [] })
  | true, st =>
    if (check_existing_indexes st).isEmpty then
      (st, { removed := [], errors := [] })
    else
      (removeLoop st (check_existing_indexes st),
        { removed := check_existing_indexes st, errors := [] })

/-!  Shared lemmas and concrete fixtures. -/

/-- When both numeric bounds parse, `search_stories` succeeds with the
paginated slice of the ordered matches and the unpaginated match count. -/
theorem search_stories_ok (qp : QueryParams) (page per_page : Int)
    (db : List Story) (mn mx : Option Int)
    (hmn : parseBound qp.min_words = Except.ok mn)
    (hmx : parseBound qp.max_words = Except.ok mx) :
    search_stories qp page per_page db =
      Except.ok (sqlPage per_page ((page - 1) * per_page)
          ((db.filter (rowMatches qp mn mx)).insertionSort updatedDescRel),
        (db.filter (rowMatches qp mn mx)).length) := by
  simp [search_stories, hmn, hmx, Bind.bind, Except.bind, Pure.pure, Except.pure]

/-- A fixture row with a present author, word count and timestamp. -/
def storyA : Story :=
  { author := some "a", word_count := some 100, updated := some 5, rowid := 1 }

/-- The empty filter set (matches every row). -/
def qpNone : QueryParams := {}

/-- A row whose only distinguishing field is its rowid. -/
def mkRow (i : Nat) : Story := { rowid := i }

/-- A 101-row dataset on which an unclamped `per_page` is observable. -/
def db101 : List Story := (List.range 101).map mkRow

/-- C2 counterexample: `search_stories` applies no `per_page` clamp — on a
101-row dataset, page 1 with `per_page = 500` returns 101 records while
`per_page = 100` returns 100, so `per_page` above 100 does not behave like
`per_page = 100`. -/
theorem search_stories_per_page_unclamped_cex :
    (pageRecords qpNone 500 db101 1).length = 101 ∧
    (pageRecords qpNone 100 db101 1).length = 100 ∧
    pageRecords qpNone 500 db101 1 ≠ pageRecords qpNone 100 db101 1 := by
  have h1 : (pageRecords qpNone 500 db101 1).length = 101 := by decide
  have h2 : (pageRecords qpNone 100 db101 1).length = 100 := by decide
  refine ⟨h1, h2, fun h => ?_⟩
  rw [h, h2] at h1
  exact absurd h1 (by decide)

/-- C2 (amended): only the JSON API search endpoint clamps `per_page` (to a
maximum of 100); at that endpoint every request with `per_page ≥ 100` behaves
identically to `per_page = 100`, for every filter set, page and dataset. -/
theorem api_search_clamps_per_page (qp : QueryParams) (page per_page : Int)
    (db : List Story) (h : 100 ≤ per_page) :
    api_search qp page per_page db = api_search qp page 100 db := by
  unfold api_search
  rw [min_eq_right h, min_self]

/-- Witness for `api_search_clamps_per_page` at `per_page = 500`. -/
theorem api_search_clamps_per_page_witness :
    (100 : Int) ≤ 500 ∧
      api_search qpNone 1 500 [storyA] = api_search qpNone 1 100 [storyA] :=
  ⟨by decide, api_search_clamps_per_page qpNone 1 500 [storyA] (by decide)⟩

/-- C3 counterexample: a request with page number `0` does not fail — it
succeeds and returns exactly the same page as page `1` (SQLite treats the
negative OFFSET as zero). -/
theorem search_stories_nonpositive_page_ok_cex :
    search_stories qpNone 0 10 [storyA] = Except.ok ([storyA], 1) ∧
    search_stories qpNone 0 10 [storyA] = search_stories qpNone 1 10 [storyA] :=
  ⟨by rfl, by rfl⟩

/-- C3 (amended): for every non-positive page number and non-negative
`per_page`, `search_stories` silently coerces the request to page 1: the
negative OFFSET is clamped to zero, so the returned page and `total_count`
are those of page 1, and no error is raised. -/
theorem search_stories_nonpositive_page_acts_as_page_one
    (qp : QueryParams) (db : List Story) (page per_page : Int)
    (hpage : page ≤ 0) (hpp : 0 ≤ per_page) :
    search_stories qp page per_page db = search_stories qp 1 per_page db := by
  have hoff : ((page - 1) * per_page).toNat = ((1 - 1 : Int) * per_page).toNat := by
    have h1 : (page - 1) * per_page ≤ 0 :=
      mul_nonpos_iff.mpr (Or.inr ⟨by omega, hpp⟩)
    have h2 : ((1 - 1 : Int) * per_page) = 0 := by ring
    rw [h2, Int.toNat_of_nonpos h1]
    rfl
  have key : ∀ l : List Story, sqlPage per_page ((page - 1) * per_page) l
      = sqlPage per_page ((1 - 1) * per_page) l := by
    intro l
    unfold sqlPage
    rw [hoff]
  cases hmn : parseBound qp.min_words with
  | error e => simp [search_stories, hmn, Bind.bind, Except.bind]
  | ok mn =>
    cases hmx : parseBound qp.max_words with
    | error e => simp [search_stories, hmn, hmx, Bind.bind, Except.bind]
    | ok mx =>
      simp [search_stories, hmn, hmx, Bind.bind, Except.bind, Pure.pure,
        Except.pure, key]

/-- Witness for `search_stories_nonpositive_page_acts_as_page_one` at
page `0`. -/
theorem search_stories_nonpositive_page_witness :
    (0 : Int) ≤ 0 ∧ (0 : Int) ≤ 10 ∧
      search_stories qpNone 0 10 [storyA] = search_stories qpNone 1 10 [storyA] :=
  ⟨le_refl 0, by decide,
    search_stories_nonpositive_page_acts_as_page_one qpNone [storyA] 0 10
      (le_refl 0) (by decide)⟩

/-- C4: a present, non-empty `min_words` or `max_words` value that Python
`int()` cannot parse makes `search_stories` raise `ValueError` to its caller;
it never returns a (possibly empty) result page. -/
theorem search_stories_malformed_bound_raises
    (qp : QueryParams) (page per_page : Int) (db : List Story) (s : String)
    (h : (qp.min_words = some s ∨ qp.max_words = some s) ∧ s ≠ "" ∧
      pyInt? s = none) :
    search_stories qp page per_page db = Except.error PyErr.valueError := by
  obtain ⟨hor, hne, hpar⟩ := h
  cases hor with
  | inl hmin =>
    have hm : parseBound qp.min_words = Except.error PyErr.valueError := by
      rw [hmin]; simp [parseBound, hne, hpar]
    simp [search_stories, hm, Bind.bind, Except.bind]
  | inr hmax =>
    have hx : parseBound qp.max_words = Except.error PyErr.valueError := by
      rw [hmax]; simp [parseBound, hne, hpar]
    cases hmn : parseBound qp.min_words with
    | error e => cases e; simp [search_stories, hmn, Bind.bind, Except.bind]
    | ok mn => simp [search_stories, hmn, hx, Bind.bind, Except.bind]

/-- A filter set whose `min_words` is the unparsable string of the spec
scenario. -/
def qpBadMin : QueryParams := { category := some "Harry Potter", min_words := some "abc" }

/-- Witness for `search_stories_malformed_bound_raises` on the spec scenario
`search({category:"Harry Potter", min_words:"abc"}, page=1, per_page=10)`. -/
theorem search_stories_malformed_bound_witness :
    ((qpBadMin.min_words = some "abc" ∨ qpBadMin.max_words = some "abc") ∧
        "abc" ≠ "" ∧ pyInt? "abc" = none) ∧
      search_stories qpBadMin 1 10 [storyA] = Except.error PyErr.valueError :=
  ⟨⟨Or.inl rfl, by decide, by decide⟩,
    search_stories_malformed_bound_raises qpBadMin 1 10 [storyA] "abc"
      ⟨Or.inl rfl, by decide, by decide⟩⟩

/-- C8: without the confirmation flag, `remove_indexes` performs no
destructive action on any index state: the state is unchanged and the result
reports nothing removed and no errors. -/
theorem remove_indexes_unconfirmed_noop (st : List String) :
    remove_indexes false st = (st, { removed := [], errors := [] }) := rfl

/-- A page of the empty result list is empty. -/
theorem sqlPage_nil (limit offset : Int) : sqlPage limit offset [] = [] := by
  unfold sqlPage
  split <;> simp

/-- Every record of a result page comes from the ordered result list. -/
theorem sqlPage_subset (limit offset : Int) (l : List Story) :
    sqlPage limit offset l ⊆ l := by
  unfold sqlPage
  split
  · exact List.drop_subset _ _
  · exact fun x hx => List.drop_subset _ _ ((List.take_subset _ _) hx)

/-- C6: with two well-formed numeric bounds, every returned record has a
present `word_count` inside the inclusive range, and an inverted range
(`min_words > max_words`) yields the empty page with `total_count = 0`
instead of an error. -/
theorem search_stories_word_bounds
    (qp : QueryParams) (page per_page : Int) (db : List Story)
    (smn smx : String) (mn mx : Int)
    (hmin : qp.min_words = some smn) (hpm : pyInt? smn = some mn)
    (hmax : qp.max_words = some smx) (hpx : pyInt? smx = some mx) :
    (mn ≤ mx → ∀ rs t, search_stories qp page per_page db = Except.ok (rs, t) →
        ∀ r ∈ rs, ∃ w, r.word_count = some w ∧ mn ≤ w ∧ w ≤ mx) ∧
    (mx < mn → search_stories qp page per_page db = Except.ok ([], 0)) := by
  have hemp : pyInt? "" = none := rfl
  have hsne : smn ≠ "" := by
    intro he; rw [he, hemp] at hpm; cases hpm
  have hxne : smx ≠ "" := by
    intro he; rw [he, hemp] at hpx; cases hpx
  have hbn : parseBound qp.min_words = Except.ok (some mn) := by
    rw [hmin]; simp [parseBound, hsne, hpm]
  have hbx : parseBound qp.max_words = Except.ok (some mx) := by
    rw [hmax]; simp [parseBound, hxne, hpx]
  have hok := search_stories_ok qp page per_page db (some mn) (some mx) hbn hbx
  constructor
  · intro _ rs t hrun r hr
    rw [hok] at hrun
    have hrs : rs = sqlPage per_page ((page - 1) * per_page)
        ((db.filter (rowMatches qp (some mn) (some mx))).insertionSort
          updatedDescRel) := by
      injection hrun with h
      exact (congrArg Prod.fst h).symm
    rw [hrs] at hr
    have hr2 : r ∈ db.filter (rowMatches qp (some mn) (some mx)) :=
      (List.mem_insertionSort updatedDescRel).mp (sqlPage_subset _ _ _ hr)
    have hb := (List.mem_filter.mp hr2).2
    cases hw : r.word_count with
    | none => simp [rowMatches, condMin, hw] at hb
    | some w =>
      simp only [rowMatches, hw, condMin, condMax, Bool.and_eq_true,
        decide_eq_true_eq] at hb
      obtain ⟨⟨-, h8⟩, h9⟩ := hb
      exact ⟨w, rfl, h8, h9⟩
  · intro hlt
    have hnil : db.filter (rowMatches qp (some mn) (some mx)) = [] := by
      apply List.filter_eq_nil_iff.mpr
      intro r _
      cases hw : r.word_count with
      | none => simp [rowMatches, condMin, hw]
      | some w =>
        simp only [rowMatches, hw, condMin, condMax, Bool.and_eq_true,
          decide_eq_true_eq]
        rintro ⟨⟨-, h8⟩, h9⟩
        omega
    rw [hok, hnil]
    simp [List.insertionSort, sqlPage_nil]

/-- A well-formed inclusive word-count range request. -/
def qpRange : QueryParams := { min_words := some "10", max_words := some "20" }

/-- Witness for `search_stories_word_bounds` at the range 10..20. -/
theorem search_stories_word_bounds_witness :
    (qpRange.min_words = some "10" ∧ pyInt? "10" = some 10 ∧
      qpRange.max_words = some "20" ∧ pyInt? "20" = some 20) ∧
    (((10 : Int) ≤ 20 → ∀ rs t,
        search_stories qpRange 1 10 [storyA] = Except.ok (rs, t) →
        ∀ r ∈ rs, ∃ w, r.word_count = some w ∧ 10 ≤ w ∧ w ≤ 20) ∧
      ((20 : Int) < 10 →
        search_stories qpRange 1 10 [storyA] = Except.ok ([], 0))) :=
  ⟨⟨rfl, by decide, rfl, by decide⟩,
    search_stories_word_bounds qpRange 1 10 [storyA] "10" "20" 10 20 rfl
      (by decide) rfl (by decide)⟩

/-- Concatenating the consecutive `k`-sized chunks of a list restores the
list, provided enough chunks are taken. -/
theorem flatMap_chunks_eq {α : Type} (k : Nat) (hk : 0 < k) :
    ∀ (n : Nat) (l : List α), l.length ≤ n * k →
      ((List.range n).flatMap fun i => (l.drop (i * k)).take k) = l := by
  intro n
  induction n with
  | zero =>
    intro l hl
    simp only [Nat.zero_mul, Nat.le_zero] at hl
    rw [List.length_eq_zero] at hl
    simp [hl]
  | succ n ih =>
    intro l hl
    rw [List.range_succ_eq_map, List.flatMap_cons, List.flatMap_map]
    have hfun : (fun a => (l.drop (Nat.succ a * k)).take k)
        = fun a => (((l.drop k).drop (a * k)).take k) := by
      funext a
      rw [Nat.succ_mul, Nat.add_comm (a * k) k, ← List.drop_drop]
    have hlen : (l.drop k).length ≤ n * k := by
      rw [List.length_drop]
      have hsm : (n + 1) * k = n * k + k := by ring
      rw [hsm] at hl
      set p := n * k with hp
      omega
    calc (l.drop (0 * k)).take k ++
          (List.range n).flatMap (fun a => (l.drop (Nat.succ a * k)).take k)
        = l.take k ++ (List.range n).flatMap
            (fun a => (((l.drop k).drop (a * k)).take k)) := by
          rw [hfun]; simp
      _ = l.take k ++ l.drop k := by rw [ih (l.drop k) hlen]
      _ = l := List.take_append_drop k l

/-- `t` items fit into `ceil(t / k)` pages of size `k`. -/
theorem le_ceil_mul (t k : Nat) (hk : 0 < k) : t ≤ ((t + k - 1) / k) * k := by
  have h1 := Nat.div_add_mod (t + k - 1) k
  have h2 := Nat.mod_lt (t + k - 1) hk
  rw [Nat.mul_comm]
  set p := k * ((t + k - 1) / k) with hp
  set r := (t + k - 1) % k with hr
  omega

/-- On a successful search, page `i + 1` is the `i`-th `k`-sized chunk of the
ordered match list. -/
theorem pageRecords_eq_chunk (qp : QueryParams) (db : List Story) (k : Nat)
    (hk : 0 < k) (mn mx : Option Int)
    (hmn : parseBound qp.min_words = Except.ok mn)
    (hmx : parseBound qp.max_words = Except.ok mx) (i : Nat) :
    pageRecords qp (k : Int) db ((i : Int) + 1)
      = (((db.filter (rowMatches qp mn mx)).insertionSort
          updatedDescRel).drop (i * k)).take k := by
  unfold pageRecords
  rw [search_stories_ok qp ((i : Int) + 1) (k : Int) db mn mx hmn hmx]
  unfold sqlPage
  have hnotneg : ¬ ((k : Int) < 0) := not_lt.mpr (Int.natCast_nonneg k)
  rw [if_neg hnotneg]
  have hoff : ((((i : Int) + 1) - 1) * (k : Int)).toNat = i * k := by
    have hcast : (((i : Int) + 1) - 1) * (k : Int) = ((i * k : Nat) : Int) := by
      push_cast; ring
    rw [hcast, Int.toNat_natCast]
  have hlim : ((k : Nat) : Int).toNat = k := Int.toNat_natCast k
  rw [hoff, hlim]

/-- On a successful search, `total_count` is the number of matching records,
independent of the pagination window. -/
theorem searchTotalCount_eq (qp : QueryParams) (db : List Story) (k : Nat)
    (mn mx : Option Int)
    (hmn : parseBound qp.min_words = Except.ok mn)
    (hmx : parseBound qp.max_words = Except.ok mx) :
    searchTotalCount qp (k : Int) db = (db.filter (rowMatches qp mn mx)).length := by
  unfold searchTotalCount
  rw [search_stories_ok qp 1 (k : Int) db mn mx hmn hmx]

/-- C5: for a fixed filter set (whose bounds parse), a fixed dataset and a
fixed page size, the concatenation of pages `1 .. total_pages` is a
permutation of the full matched set, contains exactly `total_count` records,
and has no duplicates whenever the dataset snapshot has none. -/
theorem search_stories_pagination_consistency
    (qp : QueryParams) (db : List Story) (k : Nat) (hk : 0 < k)
    (mn mx : Option Int)
    (hmn : parseBound qp.min_words = Except.ok mn)
    (hmx : parseBound qp.max_words = Except.ok mx) :
    ((List.range ((searchTotalCount qp (k : Int) db + k - 1) / k)).flatMap
        (fun i => pageRecords qp (k : Int) db ((i : Int) + 1))).Perm
      (db.filter (rowMatches qp mn mx)) ∧
    ((List.range ((searchTotalCount qp (k : Int) db + k - 1) / k)).flatMap
        (fun i => pageRecords qp (k : Int) db ((i : Int) + 1))).length
      = searchTotalCount qp (k : Int) db ∧
    (db.Nodup →
      ((List.range ((searchTotalCount qp (k : Int) db + k - 1) / k)).flatMap
        (fun i => pageRecords qp (k : Int) db ((i : Int) + 1))).Nodup) := by
  have htot := searchTotalCount_eq qp db k mn mx hmn hmx
  have hfun : (fun i : Nat => pageRecords qp (k : Int) db ((i : Int) + 1))
      = fun i => (((db.filter (rowMatches qp mn mx)).insertionSort
          updatedDescRel).drop (i * k)).take k := by
    funext i
    exact pageRecords_eq_chunk qp db k hk mn mx hmn hmx i
  have hperm := List.perm_insertionSort updatedDescRel
    (db.filter (rowMatches qp mn mx))
  have hlen : ((db.filter (rowMatches qp mn mx)).insertionSort
      updatedDescRel).length ≤ ((searchTotalCount qp (k : Int) db + k - 1) / k) * k := by
    rw [hperm.length_eq, ← htot]
    exact le_ceil_mul _ k hk
  have hchunks := flatMap_chunks_eq k hk
    ((searchTotalCount qp (k : Int) db + k - 1) / k)
    ((db.filter (rowMatches qp mn mx)).insertionSort updatedDescRel) hlen
  rw [hfun, hchunks]
  refine ⟨hperm, ?_, ?_⟩
  · rw [hperm.length_eq, htot]
  · intro hnd
    exact (hperm.nodup_iff).mpr (List.Nodup.filter _ hnd)

/-- Witness for `search_stories_pagination_consistency` with the empty filter
set, a one-row dataset and page size 1. -/
theorem search_stories_pagination_witness :
    0 < 1 ∧
    ((List.range ((searchTotalCount qpNone ((1 : Nat) : Int) [storyA] + 1 - 1) / 1)).flatMap
        (fun i => pageRecords qpNone ((1 : Nat) : Int) [storyA] ((i : Int) + 1))).Perm
      ([storyA].filter (rowMatches qpNone none none)) ∧
    ((List.range ((searchTotalCount qpNone ((1 : Nat) : Int) [storyA] + 1 - 1) / 1)).flatMap
        (fun i => pageRecords qpNone ((1 : Nat) : Int) [storyA] ((i : Int) + 1))).length
      = searchTotalCount qpNone ((1 : Nat) : Int) [storyA] ∧
    ([storyA].Nodup →
      ((List.range ((searchTotalCount qpNone ((1 : Nat) : Int) [storyA] + 1 - 1) / 1)).flatMap
        (fun i => pageRecords qpNone ((1 : Nat) : Int) [storyA] ((i : Int) + 1))).Nodup) := by
  have h := search_stories_pagination_consistency qpNone [storyA] 1 Nat.one_pos
    none none rfl rfl
  exact ⟨Nat.one_pos, h.1, h.2.1, h.2.2⟩

/-- The DROP INDEX loop keeps exactly the names outside the drop list. -/
theorem removeLoop_eq (names : List String) :
    ∀ st : List String,
      removeLoop st names = st.filter (fun m => decide (m ∉ names)) := by
  induction names with
  | nil =>
    intro st
    simp [removeLoop]
  | cons n rest ih =>
    intro st
    rw [removeLoop, ih, List.filter_filter]
    apply List.filter_congr
    intro m _
    by_cases h1 : m = n <;> by_cases h2 : m ∈ rest <;> simp [h1, h2]

/-- C7 counterexample: a foreign index (not in the catalog, not
SQLite-internal) is dropped by `remove_indexes(confirm=True)` — afterwards it
no longer exists, contradicting "unknown/foreign indexes are left
untouched". -/
theorem remove_indexes_drops_foreign_cex :
    (remove_indexes true ["custom_idx"]).1 = [] ∧
    "custom_idx" ∉ catalogNames ∧
    isInternalIndex "custom_idx" = false := by
  refine ⟨by rfl, by decide, by rfl⟩

/-- C7 (amended): with confirmation, `remove_indexes` drops every
non-internal index on the table — catalog-managed and foreign alike; only
SQLite-internal indexes are left, and the removed list is exactly the
`check_existing_indexes` snapshot. -/
theorem remove_indexes_confirmed_drops_all_noninternal (st : List String) :
    (remove_indexes true st).1 = st.filter (fun n => isInternalIndex n) ∧
    (remove_indexes true st).2.removed = check_existing_indexes st := by
  by_cases he : (check_existing_indexes st).isEmpty
  · have hnil : check_existing_indexes st = [] := by
      rwa [List.isEmpty_iff] at he
    have hall : ∀ n ∈ st, isInternalIndex n = true := by
      intro n hn
      have := List.filter_eq_nil_iff.mp hnil n hn
      simpa using this
    constructor
    · show (remove_indexes true st).1 = _
      rw [show remove_indexes true st
          = (st, { removed := [], errors := [] }) by
        simp only [remove_indexes]
        rw [if_pos he]]
      exact (List.filter_eq_self.mpr hall).symm
    · show (remove_indexes true st).2.removed = _
      rw [show remove_indexes true st
          = (st, { removed := [], errors := [] }) by
        simp only [remove_indexes]
        rw [if_pos he]]
      exact hnil.symm
  · have hred : remove_indexes true st
        = (removeLoop st (check_existing_indexes st),
           { removed := check_existing_indexes st, errors := [] }) := by
      simp only [remove_indexes]
      rw [if_neg he]
    rw [hred, removeLoop_eq]
    refine ⟨List.filter_congr ?_, rfl⟩
    intro m hm
    by_cases hi : isInternalIndex m
    · simp [check_existing_indexes, List.mem_filter, hi]
    · simp [check_existing_indexes, List.mem_filter, hm, hi]

/-- The creation loop never removes a name from the index state. -/
theorem createLoop_state_mono (names : List String) :
    ∀ (ex : List String) (force : Bool) (st : List String) (m : String),
      m ∈ st → m ∈ (createLoop ex force st names).1 := by
  induction names with
  | nil =>
    intro ex force st m hm
    simpa [createLoop] using hm
  | cons n rest ih =>
    intro ex force st m hm
    simp only [createLoop]
    split
    · exact ih ex force st m hm
    · apply ih
      unfold createStep
      split
      · exact hm
      · exact List.mem_append_left _ hm

/-- After a non-forced creation run, every catalog name is in the state. -/
theorem createLoop_adds (names : List String) :
    ∀ (ex st : List String), ex ⊆ st →
      ∀ n ∈ names, n ∈ (createLoop ex false st names).1 := by
  induction names with
  | nil =>
    intro ex st hsub n hn
    cases hn
  | cons m rest ih =>
    intro ex st hsub n hn
    simp only [createLoop]
    by_cases hc : m ∈ ex
    · rw [if_pos ⟨hc, trivial⟩]
      rcases List.mem_cons.mp hn with h | h
      · subst h
        exact createLoop_state_mono rest ex false st n (hsub hc)
      · exact ih ex st hsub n h
    · rw [if_neg (by simp [hc])]
      have hmem : m ∈ createStep st m := by
        unfold createStep
        split
        · assumption
        · exact List.mem_append_right _ (List.mem_singleton.mpr rfl)
      have hsub2 : ex ⊆ createStep st m := by
        intro x hx
        unfold createStep
        split
        · exact hsub hx
        · exact List.mem_append_left _ (hsub hx)
      rcases List.mem_cons.mp hn with h | h
      · subst h
        exact createLoop_state_mono rest ex false _ n hmem
      · exact ih ex (createStep st m) hsub2 n h

/-- When every entry already exists in the snapshot, a non-forced creation
run leaves the state unchanged, creates nothing and skips every entry in
order. -/
theorem createLoop_all_existing (names : List String) :
    ∀ (ex st : List String), (∀ n ∈ names, n ∈ ex) →
      createLoop ex false st names = (st, [], names) := by
  induction names with
  | nil =>
    intro ex st h
    rfl
  | cons m rest ih =>
    intro ex st h
    simp only [createLoop]
    rw [if_pos ⟨h m (List.mem_cons_self m rest), trivial⟩]
    rw [ih ex st (fun n hn => h n (List.mem_cons_of_mem m hn))]

/-- C9: with an unchanged catalog, the second of two successive
`create_indexes(force=False)` runs reports every catalog entry as skipped,
zero entries created and zero errors. -/
theorem create_indexes_second_run_skips_all (st : List String) :
    (create_indexes false (create_indexes false st).1).2
      = { created := [], skipped := catalogNames, errors := [] } := by
  have hint : ∀ n ∈ catalogNames, isInternalIndex n = false := by decide
  set st1 := (create_indexes false st).1 with hst1
  have hall : ∀ n ∈ catalogNames, n ∈ check_existing_indexes st1 := by
    intro n hn
    apply List.mem_filter.mpr
    refine ⟨?_, by simp [hint n hn]⟩
    rw [hst1]
    simp only [create_indexes]
    exact createLoop_adds catalogNames (check_existing_indexes st) st
      (fun x hx => (List.mem_filter.mp hx).1) n hn
  have h2 := createLoop_all_existing catalogNames (check_existing_indexes st1)
    st1 hall
  simp only [create_indexes]
  rw [h2]

/-- Every author value produced by the grouping filter is non-empty. -/
theorem authorValues_ne_empty (db : List Story) (a : String)
    (ha : a ∈ authorValues db) : a ≠ "" := by
  unfold authorValues at ha
  rw [List.mem_dedup] at ha
  obtain ⟨r, -, hr⟩ := List.mem_filterMap.mp ha
  unfold presentAuthor at hr
  split at hr
  · split at hr
    · cases hr
    · next hne =>
      injection hr with h
      rw [← h]
      exact hne
  · cases hr

/-- C1 (amended): every entry of `get_top_authors` has a non-empty author, a
story count equal to the author's row count, an `avg_words` equal to the mean
of `word_count` over the author's records where `word_count` is present
(zero-valued word counts count in numerator and denominator, NULLs in
neither), and a `total_words` equal to the sum over the same records. -/
theorem get_top_authors_entry_stats (db : List Story) (limit : Nat)
    (st : AuthorStat) (hst : st ∈ get_top_authors db limit) :
    st.author ≠ "" ∧
    st.story_count = (author_rows db st.author).length ∧
    st.avg_words = sqlAvg (groupWordCounts db st.author) ∧
    st.total_words = sqlSum (groupWordCounts db st.author) := by
  unfold get_top_authors at hst
  have h1 : st ∈ ((authorValues db).map (authorStat db)).insertionSort
      storyCountDescRel := List.take_subset _ _ hst
  have h2 : st ∈ (authorValues db).map (authorStat db) :=
    (List.mem_insertionSort _).mp h1
  obtain ⟨a, ha, heq⟩ := List.mem_map.mp h2
  subst heq
  exact ⟨authorValues_ne_empty db a ha, rfl, rfl, rfl⟩

/-- Witness for `get_top_authors_entry_stats` on a one-row dataset. -/
theorem get_top_authors_entry_stats_witness :
    (authorStat [storyA] "a" ∈ get_top_authors [storyA] 10) ∧
    ((authorStat [storyA] "a").author ≠ "" ∧
      (authorStat [storyA] "a").story_count
        = (author_rows [storyA] (authorStat [storyA] "a").author).length ∧
      (authorStat [storyA] "a").avg_words
        = sqlAvg (groupWordCounts [storyA] (authorStat [storyA] "a").author) ∧
      (authorStat [storyA] "a").total_words
        = sqlSum (groupWordCounts [storyA] (authorStat [storyA] "a").author)) := by
  have hav : authorValues [storyA] = ["a"] := by decide
  have hmem : authorStat [storyA] "a" ∈ get_top_authors [storyA] 10 := by
    simp [get_top_authors, hav, List.insertionSort, List.orderedInsert]
  exact ⟨hmem,
    get_top_authors_entry_stats [storyA] 10 (authorStat [storyA] "a") hmem⟩

/-- A row of author "jane" with a zero (but present) word count. -/
def storyZero : Story :=
  { author := some "jane", word_count := some 0, updated := some 1, rowid := 1 }

/-- A row of author "jane" with word count 100. -/
def storyHundred : Story :=
  { author := some "jane", word_count := some 100, updated := some 2, rowid := 2 }

/-- A dataset on which a zero word count shifts the returned average. -/
def dbJane : List Story := [storyZero, storyHundred]

/-- C1 counterexample: on `dbJane` the single returned entry reports
`avg_words = 50` — the zero word count is included in the denominator —
while the mean over only the records with `word_count > 0` is 100. -/
theorem get_top_authors_avg_counts_zero_cex :
    (get_top_authors dbJane 10).map (fun st => st.avg_words)
      = [some (50 : ℚ)] ∧
    specAvgPositive dbJane "jane" = some (100 : ℚ) ∧
    (50 : ℚ) ≠ (100 : ℚ) := by
  have hav : authorValues dbJane = ["jane"] := by decide
  have hgw : groupWordCounts dbJane "jane" = [0, 100] := by decide
  have hpos : (groupWordCounts dbJane "jane").filter (fun w => decide (0 < w))
      = [100] := by decide
  refine ⟨?_, ?_, by norm_num⟩
  · simp [get_top_authors, hav, List.insertionSort, List.orderedInsert,
      authorStat, hgw, sqlAvg]
    norm_num
  · simp [specAvgPositive, hpos, sqlAvg]

/-- A list of integers each at least 1 sums to at least its length. -/
theorem length_le_sum_of_one_le :
    ∀ l : List Int, (∀ x ∈ l, 1 ≤ x) → (l.length : Int) ≤ l.sum := by
  intro l
  induction l with
  | nil => intro; simp
  | cons x xs ih =>
    intro h
    have hx := h x (List.mem_cons_self x xs)
    have hxs := ih (fun y hy => h y (List.mem_cons_of_mem x hy))
    simp only [List.length_cons, List.sum_cons]
    push_cast
    omega

/-- C10: the zero-vs-null policies of `get_basic_stats` differ deliberately:
`total_words` is NULL exactly when no record has a present `word_count`
(otherwise the sum over present values, zeros included), while `avg_words`
is `0` exactly when no record has `word_count > 0`, and otherwise the
truncated (= floored, the mean being positive) mean over the positive word
counts. -/
theorem get_basic_stats_zero_null_policy (db : List Story) :
    ((get_basic_stats db).total_words = none ↔ allWordCounts db = []) ∧
    (get_basic_stats db).total_words = sqlSum (allWordCounts db) ∧
    ((get_basic_stats db).avg_words = 0 ↔
      (allWordCounts db).filter (fun w => decide (0 < w)) = []) ∧
    (get_basic_stats db).avg_words =
      (if ((allWordCounts db).filter (fun w => decide (0 < w))).isEmpty then 0
       else ⌊(((allWordCounts db).filter (fun w => decide (0 < w))).sum : ℚ)
          / (((allWordCounts db).filter (fun w => decide (0 < w))).length : ℚ)⌋) := by
  set ws := allWordCounts db with hws
  set pos := ws.filter (fun w => decide (0 < w)) with hpos
  have hts : (get_basic_stats db).total_words = sqlSum ws := rfl
  have havg : (get_basic_stats db).avg_words
      = (match sqlAvg pos with
         | none => 0
         | some q => if q = 0 then 0 else pyTruncInt q) := rfl
  have htw : (get_basic_stats db).total_words = none ↔ ws = [] := by
    rw [hts]
    unfold sqlSum
    by_cases h : ws.isEmpty
    · rw [if_pos h]
      simp [List.isEmpty_iff.mp h]
    · rw [if_neg h]
      simp [List.isEmpty_iff] at h
      simp [h]
  by_cases hp : pos = []
  · have h0 : (get_basic_stats db).avg_words = 0 := by
      rw [havg, hp]
      rfl
    refine ⟨htw, hts, ?_, ?_⟩
    · simp [h0, hp]
    · simp [h0, hp]
  · have hone : ∀ x ∈ pos, (1 : Int) ≤ x := by
      intro x hx
      have hd := (List.mem_filter.mp hx).2
      simp at hd
      omega
    have hlen : 0 < pos.length := List.length_pos.mpr hp
    have hsumge : (pos.length : Int) ≤ pos.sum := length_le_sum_of_one_le pos hone
    have hq1 : (1 : ℚ) ≤ (pos.sum : ℚ) / (pos.length : ℚ) := by
      rw [one_le_div (by exact_mod_cast hlen)]
      exact_mod_cast hsumge
    have hqne : ((pos.sum : ℚ) / (pos.length : ℚ)) ≠ 0 := by linarith
    have hsa : sqlAvg pos = some ((pos.sum : ℚ) / (pos.length : ℚ)) := by
      unfold sqlAvg
      rw [if_neg (by simpa [List.isEmpty_iff] using hp)]
    have hfl : (get_basic_stats db).avg_words
        = ⌊(pos.sum : ℚ) / (pos.length : ℚ)⌋ := by
      rw [havg, hsa]
      dsimp only
      rw [if_neg hqne]
      unfold pyTruncInt
      rw [if_pos (by linarith)]
    have hfl1 : (1 : Int) ≤ ⌊(pos.sum : ℚ) / (pos.length : ℚ)⌋ :=
      Int.le_floor.mpr (by exact_mod_cast hq1)
    refine ⟨htw, hts, ?_, ?_⟩
    · constructor
      · intro h0
        rw [hfl] at h0
        omega
      · intro h
        exact absurd h hp
    · rw [hfl, if_neg (by simpa [List.isEmpty_iff] using hp)]
